import Mathlib

/-!
Verification of the formatting core of `react-credit-card-input`
(`src/CardInput/index.js`).

The embedding translates the three core pieces of the source file:

* `getPatternFromNumber` (lines 26-38): pattern selection from the first
  character of the value, with the 19-`#` fallback.
* `isNumber` (lines 40-42): digit test via membership in `"0123456789"`.
* `formatNumber` (lines 48-126): the formatting walk over the input string
  and the pattern, with the cursor bookkeeping, and its defaulting of
  `selectionStart`/`selectionEnd`.
* `manageChange` / `revertState` (lines 204-251): the edit-guard decision
  sequence, modelled as a pure function from the key-down snapshot, the
  post-edit field state, and the previously displayed value to the new
  field state together with a flag telling whether the change observer
  (`onChange`) is notified.

Strings are modelled as Lean `String`s; the walk itself works on
`List Char` (`String.data`). Cursor offsets are `Nat`s.
-/

/-- The `patterns` object literal of `getPatternFromNumber`
(source lines 27-34), as a lookup by key equality: `patterns[c]` is `some`
pattern for the six keys and `none` (JS `undefined`) otherwise. -/
def patternsLookup (c : Char) : Option String :=
  if c = '0' then some "###################"
  else if c = '2' then some "#### #### #### ####"
  else if c = '3' then some "#### ###### #####"
  else if c = '4' then some "#### #### #### #### ###"
  else if c = '5' then some "#### #### #### ####"
  else if c = '6' then some "#### #### #### ####"
  else none

/-- `getPatternFromNumber` (source lines 26-38):
`firstDigit = ('' + number)[0] || '0'` is the first character of the
string, or `'0'` for the empty string (the only falsy character value);
the result is `patterns[firstDigit] || patterns['0']`. -/
def getPatternFromNumber (number : String) : String :=
  (patternsLookup (number.data.head?.getD '0')).getD "###################"

/-- `isNumber` (source lines 40-42): `"0123456789".indexOf(value) !== -1`. -/
def isNumber (c : Char) : Bool :=
  "0123456789".data.contains c

/-- The argument record of `formatNumber` (source lines 48-55).
`selectionStart` and `selectionEnd` are optional; `none` models an absent
argument, handled by the source's default parameter values. -/
structure FormatRequest where
  value : String
  selectionStart : Option Nat := none
  selectionEnd : Option Nat := none
deriving DecidableEq, Repr

/-- The result record of `formatNumber` (source lines 121-125), which is
also the shape of the component state set by `setInputState`. -/
structure FormatResult where
  value : String
  selectionStart : Nat
  selectionEnd : Nat
deriving DecidableEq, Repr

/-- Default for `selectionStart` (source lines 50-53): the length of the
value. (The `typeof value !== 'undefined'` guard is vacuous here because
the model always carries a string value.) -/
def effectiveStart (req : FormatRequest) : Nat :=
  req.selectionStart.getD req.value.length

/-- Default for `selectionEnd` (source line 54): `selectionStart`. -/
def effectiveEnd (req : FormatRequest) : Nat :=
  req.selectionEnd.getD (effectiveStart req)

/-- The iterations of the `formatNumber` while loop (source lines 86-119)
in which the pattern index `j` stays put: at a `'#'` pattern position,
`processNumber` drops non-digit input characters one at a time
(`addToOutput` false, `shiftInput` true), advancing only `i`. This helper
performs that run of iterations, returning the remaining input and the
advanced `i`. Cursors are untouched by these iterations. -/
def dropNonNumbers : List Char → Nat → List Char × Nat
  | [], i => ([], i)
  | c :: rest, i => if isNumber c then (c :: rest, i) else dropNonNumbers rest (i + 1)

/-- The `formatNumber` while loop (source lines 86-119). Arguments:
remaining pattern (from index `j`), remaining input (from index `i`), the
absolute input index `i`, and the current cursor offsets. Returns the
output characters produced from pattern index `j` on, and the final
cursor offsets. Each equation corresponds to the loop iterations that
advance `j` by one (plus the `j`-preserving dropping iterations fused
into `dropNonNumbers`); the loop exits when either list is exhausted.

* `'#'` pattern position (`processNumber`, lines 57-64): non-digits are
  dropped (`dropNonNumbers`); a digit is appended and both indices move.
* other pattern positions (`processSpace`, lines 66-75): `' '` is always
  appended; if the input character is a digit it is not consumed
  (`shiftInput` false) and each cursor offset with `i < offset` is
  incremented (lines 106-118); otherwise the input character is consumed.
-/
def formatLoop : List Char → List Char → Nat → Nat → Nat → List Char × Nat × Nat
  | [], _, _, s, e => ([], s, e)
  | _ :: _, [], _, s, e => ([], s, e)
  | pC :: pRest, inC :: inRest, i, s, e =>
    if pC = '#' then
      match dropNonNumbers (inC :: inRest) i with
      | ([], _) => ([], s, e)
      | (d :: rest, i2) =>
        let r := formatLoop pRest rest (i2 + 1) s e
        (d :: r.1, r.2.1, r.2.2)
    else
      if isNumber inC then
        let r := formatLoop pRest (inC :: inRest) i
          (if i < s then s + 1 else s) (if i < e then e + 1 else e)
        (' ' :: r.1, r.2.1, r.2.2)
      else
        let r := formatLoop pRest inRest (i + 1) s e
        (' ' :: r.1, r.2.1, r.2.2)

/-- `formatNumber` (source lines 48-126): select the pattern from the
input value, run the walk from `i = j = 0` with the (possibly defaulted)
cursor offsets, and join the output characters. -/
def formatNumber (req : FormatRequest) : FormatResult :=
  let inputNumber := req.value
  let pattern := getPatternFromNumber inputNumber
  let r := formatLoop pattern.data inputNumber.data 0 (effectiveStart req) (effectiveEnd req)
  { value := String.mk r.1, selectionStart := r.2.1, selectionEnd := r.2.2 }

/-- Position-by-position conformance of a character list to a pattern:
every character is a digit sitting at a `'#'` position of the pattern, or
a space sitting at a non-`'#'` position. -/
def Conforms (pat out : List Char) : Prop :=
  ∀ k c, out.get? k = some c →
    (pat.get? k = some '#' ∧ isNumber c = true) ∨ (c = ' ' ∧ pat.get? k ≠ some '#')

/-! ### Edit guard (`manageChange`, source lines 191-251) -/

/-- The per-keystroke snapshot captured by `getReversionData`
(source lines 191-202). -/
structure EditSnapshot where
  value : String
  selectionStart : Nat
  selectionEnd : Nat
  isReplacing : Bool
  isAddingSpace : Bool
deriving DecidableEq, Repr

/-- The test `/[^0-9 ]/.test(value)` of `manageChange` (source line 221):
some character of the value is neither a digit nor a space. -/
def hasNonCardChar (v : String) : Bool :=
  v.data.any (fun c => !(isNumber c || c == ' '))

/-- `manageChange` (source lines 213-251) as a pure decision function.
Arguments: the key-down snapshot (`reversionData.current`), the post-edit
field state (`e.target`: value and cursor range), and the currently
displayed value (`inputState.value`). Returns the new field state
(the state passed to `setInputState`, which for a rejected edit is the
snapshot restored by `revertState`, source lines 204-211) together with
whether the change observer `onChange` is notified (source lines 247-250).
-/
def manageChange (originalInputData : EditSnapshot) (input : FormatResult)
    (displayedValue : String) : FormatResult × Bool :=
  let value := input.value
  if hasNonCardChar value then
    ({ value := originalInputData.value,
        selectionStart := originalInputData.selectionStart,
        selectionEnd := originalInputData.selectionEnd }, false)
  else
    let cardPattern := getPatternFromNumber value
    if originalInputData.value.length = cardPattern.length
        ∧ value.length ≥ cardPattern.length
        ∧ originalInputData.isReplacing = false then
      ({ value := originalInputData.value,
          selectionStart := originalInputData.selectionStart,
          selectionEnd := originalInputData.selectionEnd }, false)
    else if originalInputData.isAddingSpace = true
        ∧ cardPattern.data.get? originalInputData.selectionStart ≠ some ' ' then
      ({ value := originalInputData.value,
          selectionStart := originalInputData.selectionStart,
          selectionEnd := originalInputData.selectionEnd }, false)
    else
      let formattedData := formatNumber
        ⟨value, some input.selectionStart, some input.selectionEnd⟩
      (formattedData, !(displayedValue == formattedData.value))

/-! ### Spec-described cursor-shift variants of the walk (for claim C6) -/

/-- Modelled from the spec sentence of claim C6: identical walk to
`formatLoop`, but the cursor-shift test on a separator insertion reads
"the insertion point `i` occurs at or before that cursor offset", i.e.
`i ≤ offset`. Defined only to compare the claim's description with the
source walk, whose test is `i < offset`. -/
def formatLoopShiftAtOrBefore : List Char → List Char → Nat → Nat → Nat → List Char × Nat × Nat
  | [], _, _, s, e => ([], s, e)
  | _ :: _, [], _, s, e => ([], s, e)
  | pC :: pRest, inC :: inRest, i, s, e =>
    if pC = '#' then
      match dropNonNumbers (inC :: inRest) i with
      | ([], _) => ([], s, e)
      | (d :: rest, i2) =>
        let r := formatLoopShiftAtOrBefore pRest rest (i2 + 1) s e
        (d :: r.1, r.2.1, r.2.2)
    else
      if isNumber inC then
        let r := formatLoopShiftAtOrBefore pRest (inC :: inRest) i
          (if i ≤ s then s + 1 else s) (if i ≤ e then e + 1 else e)
        (' ' :: r.1, r.2.1, r.2.2)
      else
        let r := formatLoopShiftAtOrBefore pRest inRest (i + 1) s e
        (' ' :: r.1, r.2.1, r.2.2)

/-- `formatNumber` rebuilt on top of `formatLoopShiftAtOrBefore`: what the
formatter would return if the cursor-shift rule were the claimed
"at or before" one. -/
def formatNumberShiftAtOrBefore (req : FormatRequest) : FormatResult :=
  let r := formatLoopShiftAtOrBefore (getPatternFromNumber req.value).data req.value.data 0
    (effectiveStart req) (effectiveEnd req)
  { value := String.mk r.1, selectionStart := r.2.1, selectionEnd := r.2.2 }

/-- Modelled from the amended claim C6: the walk with the cursor-shift
test "the insertion point `i` occurs strictly before that cursor offset",
i.e. `i < offset`, and no cursor change in any other step. -/
def formatLoopShiftStrictBefore : List Char → List Char → Nat → Nat → Nat → List Char × Nat × Nat
  | [], _, _, s, e => ([], s, e)
  | _ :: _, [], _, s, e => ([], s, e)
  | pC :: pRest, inC :: inRest, i, s, e =>
    if pC = '#' then
      match dropNonNumbers (inC :: inRest) i with
      | ([], _) => ([], s, e)
      | (d :: rest, i2) =>
        let r := formatLoopShiftStrictBefore pRest rest (i2 + 1) s e
        (d :: r.1, r.2.1, r.2.2)
    else
      if isNumber inC then
        let r := formatLoopShiftStrictBefore pRest (inC :: inRest) i
          (if i < s then s + 1 else s) (if i < e then e + 1 else e)
        (' ' :: r.1, r.2.1, r.2.2)
      else
        let r := formatLoopShiftStrictBefore pRest inRest (i + 1) s e
        (' ' :: r.1, r.2.1, r.2.2)

/-! ### Lemmas and claim theorems -/

/-- C1: for every input string, `getPatternFromNumber` of a string with
first character `'2'`, `'5'` or `'6'` is `"#### #### #### ####"`; with
first character `'4'` it is `"#### #### #### #### ###"`; with `'3'` it is
`"#### ###### #####"`; with any other first character, and for the empty
string, it is the 19-`#` fallback. The function is total by construction. -/
theorem getPatternFromNumber_first_char (c : Char) (r : List Char) :
    getPatternFromNumber (String.mk (c :: r)) =
      (if c = '2' ∨ c = '5' ∨ c = '6' then "#### #### #### ####"
       else if c = '4' then "#### #### #### #### ###"
       else if c = '3' then "#### ###### #####"
       else "###################")
    ∧ getPatternFromNumber (String.mk []) = "###################" := by
  refine ⟨?_, rfl⟩
  by_cases h0 : c = '0'
  · subst h0; rfl
  · by_cases h2 : c = '2'
    · subst h2; rfl
    · by_cases h3 : c = '3'
      · subst h3; rfl
      · by_cases h4 : c = '4'
        · subst h4; rfl
        · by_cases h5 : c = '5'
          · subst h5; rfl
          · by_cases h6 : c = '6'
            · subst h6; rfl
            · simp [getPatternFromNumber, patternsLookup, h0, h2, h3, h4, h5, h6]

/-! ### Basic facts about `isNumber` and `dropNonNumbers` -/

lemma isNumber_space : isNumber ' ' = false := by decide

lemma ne_space_of_isNumber {c : Char} (h : isNumber c = true) : c ≠ ' ' := by
  intro hc
  subst hc
  exact absurd h (by decide)

lemma dropNonNumbers_eq_self {c : Char} (l : List Char) (i : Nat)
    (h : isNumber c = true) : dropNonNumbers (c :: l) i = (c :: l, i) := by
  simp [dropNonNumbers, h]

lemma dropNonNumbers_filter (l : List Char) (i : Nat) :
    (dropNonNumbers l i).1.filter (fun c => isNumber c)
      = l.filter (fun c => isNumber c) := by
  induction l generalizing i with
  | nil => rfl
  | cons c rest ih =>
    by_cases h : isNumber c = true
    · simp [dropNonNumbers, h]
    · simp only [Bool.not_eq_true] at h
      simp [dropNonNumbers, h, ih]

lemma dropNonNumbers_head {l : List Char} {i : Nat} {d : Char} {rest : List Char}
    {i2 : Nat} (h : dropNonNumbers l i = (d :: rest, i2)) : isNumber d = true := by
  induction l generalizing i with
  | nil => simp [dropNonNumbers] at h
  | cons c cs ih =>
    by_cases hc : isNumber c = true
    · rw [dropNonNumbers_eq_self cs i hc] at h
      obtain ⟨h1, -⟩ := Prod.mk.injEq .. ▸ h
      obtain ⟨hcd, -⟩ := List.cons.injEq .. ▸ h1
      rwa [← hcd]
    · simp only [Bool.not_eq_true] at hc
      simp only [dropNonNumbers, hc, Bool.false_eq_true, if_false] at h
      exact ih h

/-! ### Equation lemmas for `formatLoop`, one per loop-step shape -/

lemma formatLoop_nil (inp : List Char) (i s e : Nat) :
    formatLoop [] inp i s e = ([], s, e) := by
  cases inp <;> rfl

lemma formatLoop_inp_nil (pat : List Char) (i s e : Nat) :
    formatLoop pat [] i s e = ([], s, e) := by
  cases pat <;> rfl

lemma formatLoop_hash_none {inC : Char} {inRest : List Char} {i i2 : Nat}
    (pRest : List Char) (s e : Nat)
    (h : dropNonNumbers (inC :: inRest) i = ([], i2)) :
    formatLoop ('#' :: pRest) (inC :: inRest) i s e = ([], s, e) := by
  simp [formatLoop, h]

lemma formatLoop_hash_found {inC : Char} {inRest : List Char} {i i2 : Nat}
    {d : Char} {rest : List Char} (pRest : List Char) (s e : Nat)
    (h : dropNonNumbers (inC :: inRest) i = (d :: rest, i2)) :
    formatLoop ('#' :: pRest) (inC :: inRest) i s e =
      (d :: (formatLoop pRest rest (i2 + 1) s e).1,
        (formatLoop pRest rest (i2 + 1) s e).2.1,
        (formatLoop pRest rest (i2 + 1) s e).2.2) := by
  simp [formatLoop, h]

lemma formatLoop_sep_digit {pC inC : Char} (pRest inRest : List Char) (i s e : Nat)
    (hp : pC ≠ '#') (hn : isNumber inC = true) :
    formatLoop (pC :: pRest) (inC :: inRest) i s e =
      (' ' :: (formatLoop pRest (inC :: inRest) i
          (if i < s then s + 1 else s) (if i < e then e + 1 else e)).1,
        (formatLoop pRest (inC :: inRest) i
          (if i < s then s + 1 else s) (if i < e then e + 1 else e)).2.1,
        (formatLoop pRest (inC :: inRest) i
          (if i < s then s + 1 else s) (if i < e then e + 1 else e)).2.2) := by
  simp [formatLoop, hp, hn]

lemma formatLoop_sep_skip {pC inC : Char} (pRest inRest : List Char) (i s e : Nat)
    (hp : pC ≠ '#') (hn : isNumber inC = false) :
    formatLoop (pC :: pRest) (inC :: inRest) i s e =
      (' ' :: (formatLoop pRest inRest (i + 1) s e).1,
        (formatLoop pRest inRest (i + 1) s e).2.1,
        (formatLoop pRest inRest (i + 1) s e).2.2) := by
  simp [formatLoop, hp, hn]

/-! ### Facts about the selected patterns -/

lemma getPatternFromNumber_cases (v : String) :
    getPatternFromNumber v = "###################"
    ∨ getPatternFromNumber v = "#### #### #### ####"
    ∨ getPatternFromNumber v = "#### ###### #####"
    ∨ getPatternFromNumber v = "#### #### #### #### ###" := by
  unfold getPatternFromNumber patternsLookup
  split_ifs <;> simp

lemma getPatternFromNumber_chars (v : String) :
    ∀ k c, (getPatternFromNumber v).data.get? k = some c → c = '#' ∨ c = ' ' := by
  intro k c hk
  have hm : c ∈ (getPatternFromNumber v).data := List.get?_mem hk
  clear hk
  rcases getPatternFromNumber_cases v with h | h | h | h <;> rw [h] at hm <;>
    revert hm <;> revert c <;> decide

lemma getPatternFromNumber_head (v : String) :
    (getPatternFromNumber v).data.head? = some '#' := by
  rcases getPatternFromNumber_cases v with h | h | h | h <;> rw [h] <;> rfl

lemma getPatternFromNumber_congr {v w : String}
    (h : v.data.head? = w.data.head?) :
    getPatternFromNumber v = getPatternFromNumber w := by
  unfold getPatternFromNumber
  rw [h]

/-! ### Bridging lemmas from `formatNumber` to `formatLoop` -/

lemma formatNumber_value_data (req : FormatRequest) :
    (formatNumber req).value.data =
      (formatLoop (getPatternFromNumber req.value).data req.value.data 0
        (effectiveStart req) (effectiveEnd req)).1 := rfl

lemma formatNumber_start_eq (req : FormatRequest) :
    (formatNumber req).selectionStart =
      (formatLoop (getPatternFromNumber req.value).data req.value.data 0
        (effectiveStart req) (effectiveEnd req)).2.1 := rfl

lemma formatNumber_end_eq (req : FormatRequest) :
    (formatNumber req).selectionEnd =
      (formatLoop (getPatternFromNumber req.value).data req.value.data 0
        (effectiveStart req) (effectiveEnd req)).2.2 := rfl

lemma string_length_data (s : String) : s.length = s.data.length := rfl

lemma string_mk_data (s : String) : String.mk s.data = s := rfl

/-! ### Master lemmas about the walk -/

lemma formatLoop_length (pat inp : List Char) (i s e : Nat) :
    (formatLoop pat inp i s e).1.length ≤ pat.length := by
  induction pat generalizing inp i s e with
  | nil => simp [formatLoop_nil]
  | cons pC pRest ih =>
    cases inp with
    | nil => simp [formatLoop_inp_nil]
    | cons inC inRest =>
      by_cases hp : pC = '#'
      · subst hp
        cases hdrop : dropNonNumbers (inC :: inRest) i with
        | mk l2 i2 =>
          cases l2 with
          | nil =>
            rw [formatLoop_hash_none pRest s e hdrop]
            simp
          | cons d rest =>
            rw [formatLoop_hash_found pRest s e hdrop]
            have := ih rest (i2 + 1) s e
            simp only [List.length_cons]
            omega
      · by_cases hn : isNumber inC = true
        · rw [formatLoop_sep_digit pRest inRest i s e hp hn]
          have := ih (inC :: inRest) i
            (if i < s then s + 1 else s) (if i < e then e + 1 else e)
          simp only [List.length_cons]
          omega
        · rw [formatLoop_sep_skip pRest inRest i s e hp (by simpa using hn)]
          have := ih inRest (i + 1) s e
          simp only [List.length_cons]
          omega

lemma conforms_cons {pC c : Char} {pRest w : List Char}
    (h : Conforms (pC :: pRest) (c :: w)) : Conforms pRest w := by
  intro k d hk
  have := h (k + 1) d (by simpa using hk)
  simpa using this

lemma formatLoop_conforms (pat inp : List Char) (i s e : Nat) :
    Conforms pat (formatLoop pat inp i s e).1 := by
  induction pat generalizing inp i s e with
  | nil =>
    intro k c h
    rw [formatLoop_nil] at h
    simp at h
  | cons pC pRest ih =>
    cases inp with
    | nil =>
      intro k c h
      rw [formatLoop_inp_nil] at h
      simp at h
    | cons inC inRest =>
      by_cases hp : pC = '#'
      · subst hp
        cases hdrop : dropNonNumbers (inC :: inRest) i with
        | mk l2 i2 =>
          cases l2 with
          | nil =>
            intro k c h
            rw [formatLoop_hash_none pRest s e hdrop] at h
            simp at h
          | cons d rest =>
            intro k c h
            rw [formatLoop_hash_found pRest s e hdrop] at h
            cases k with
            | zero =>
              simp only [List.get?_cons_zero, Option.some.injEq] at h
              subst h
              exact Or.inl ⟨rfl, dropNonNumbers_head hdrop⟩
            | succ k =>
              simp only [List.get?_cons_succ] at h ⊢
              exact ih rest (i2 + 1) s e k c h
      · by_cases hn : isNumber inC = true
        · intro k c h
          rw [formatLoop_sep_digit pRest inRest i s e hp hn] at h
          cases k with
          | zero =>
            simp only [List.get?_cons_zero, Option.some.injEq] at h
            subst h
            exact Or.inr ⟨rfl, by simpa using hp⟩
          | succ k =>
            simp only [List.get?_cons_succ] at h ⊢
            exact ih (inC :: inRest) i _ _ k c h
        · intro k c h
          rw [formatLoop_sep_skip pRest inRest i s e hp (by simpa using hn)] at h
          cases k with
          | zero =>
            simp only [List.get?_cons_zero, Option.some.injEq] at h
            subst h
            exact Or.inr ⟨rfl, by simpa using hp⟩
          | succ k =>
            simp only [List.get?_cons_succ] at h ⊢
            exact ih inRest (i + 1) s e k c h

lemma formatLoop_filter (pat inp : List Char) (i s e : Nat) :
    (formatLoop pat inp i s e).1.filter (fun c => isNumber c)
      = (inp.filter (fun c => isNumber c)).take (pat.count '#') := by
  induction pat generalizing inp i s e with
  | nil => simp [formatLoop_nil]
  | cons pC pRest ih =>
    cases inp with
    | nil => simp [formatLoop_inp_nil]
    | cons inC inRest =>
      by_cases hp : pC = '#'
      · subst hp
        cases hdrop : dropNonNumbers (inC :: inRest) i with
        | mk l2 i2 =>
          have hfil := dropNonNumbers_filter (inC :: inRest) i
          rw [hdrop] at hfil
          cases l2 with
          | nil =>
            rw [formatLoop_hash_none pRest s e hdrop]
            rw [← hfil]
            simp
          | cons d rest =>
            rw [formatLoop_hash_found pRest s e hdrop]
            have hd := dropNonNumbers_head hdrop
            rw [← hfil]
            simp only [List.filter_cons, hd, if_true, List.count_cons, beq_self_eq_true,
              List.take_succ_cons, ih rest (i2 + 1) s e]
      · by_cases hn : isNumber inC = true
        · rw [formatLoop_sep_digit pRest inRest i s e hp hn]
          have hcz : (pC == '#') = false := by simpa using hp
          rw [List.filter_cons, List.count_cons]
          simp only [isNumber_space, Bool.false_eq_true, if_false, hcz, Nat.add_zero]
          exact ih (inC :: inRest) i _ _
        · have hn' : isNumber inC = false := by simpa using hn
          rw [formatLoop_sep_skip pRest inRest i s e hp hn']
          have hcz : (pC == '#') = false := by simpa using hp
          simp only [List.filter_cons, isNumber_space, hn', List.count_cons, hcz,
            Bool.false_eq_true, if_false, Nat.add_zero]
          exact ih inRest (i + 1) s e

lemma formatLoop_mono (pat inp : List Char) (i s e : Nat) (h : s ≤ e) :
    (formatLoop pat inp i s e).2.1 ≤ (formatLoop pat inp i s e).2.2 := by
  induction pat generalizing inp i s e with
  | nil => simpa [formatLoop_nil] using h
  | cons pC pRest ih =>
    cases inp with
    | nil => simpa [formatLoop_inp_nil] using h
    | cons inC inRest =>
      by_cases hp : pC = '#'
      · subst hp
        cases hdrop : dropNonNumbers (inC :: inRest) i with
        | mk l2 i2 =>
          cases l2 with
          | nil =>
            rw [formatLoop_hash_none pRest s e hdrop]
            simpa using h
          | cons d rest =>
            rw [formatLoop_hash_found pRest s e hdrop]
            simpa using ih rest (i2 + 1) s e h
      · by_cases hn : isNumber inC = true
        · rw [formatLoop_sep_digit pRest inRest i s e hp hn]
          have h2 : (if i < s then s + 1 else s) ≤ (if i < e then e + 1 else e) := by
            split_ifs <;> omega
          simpa using ih (inC :: inRest) i _ _ h2
        · rw [formatLoop_sep_skip pRest inRest i s e hp (by simpa using hn)]
          simpa using ih inRest (i + 1) s e h

lemma formatLoop_end_le (pat inp : List Char) (i s e : Nat) :
    (formatLoop pat inp i s e).2.2 ≤ e + (formatLoop pat inp i s e).1.count ' ' := by
  induction pat generalizing inp i s e with
  | nil => simp [formatLoop_nil]
  | cons pC pRest ih =>
    cases inp with
    | nil => simp [formatLoop_inp_nil]
    | cons inC inRest =>
      by_cases hp : pC = '#'
      · subst hp
        cases hdrop : dropNonNumbers (inC :: inRest) i with
        | mk l2 i2 =>
          cases l2 with
          | nil =>
            rw [formatLoop_hash_none pRest s e hdrop]
            simp
          | cons d rest =>
            rw [formatLoop_hash_found pRest s e hdrop]
            have hd : (d == ' ') = false := by
              simpa using ne_space_of_isNumber (dropNonNumbers_head hdrop)
            have := ih rest (i2 + 1) s e
            simp only [List.count_cons, hd, Bool.false_eq_true, if_false, Nat.add_zero]
            omega
      · by_cases hn : isNumber inC = true
        · rw [formatLoop_sep_digit pRest inRest i s e hp hn]
          have := ih (inC :: inRest) i
            (if i < s then s + 1 else s) (if i < e then e + 1 else e)
          have h2 : (if i < e then e + 1 else e) ≤ e + 1 := by split_ifs <;> omega
          simp only [List.count_cons, beq_self_eq_true, if_true]
          omega
        · rw [formatLoop_sep_skip pRest inRest i s e hp (by simpa using hn)]
          have := ih inRest (i + 1) s e
          simp only [List.count_cons, beq_self_eq_true, if_true]
          omega

lemma formatLoop_fixed (pat w : List Char) (i s e : Nat)
    (hc : Conforms pat w) (hl : w.length ≤ pat.length) :
    formatLoop pat w i s e = (w, s, e) := by
  induction pat generalizing w i s e with
  | nil =>
    have hw : w = [] := List.length_eq_zero.mp (Nat.le_zero.mp (by simpa using hl))
    subst hw
    rfl
  | cons pC pRest ih =>
    cases w with
    | nil => exact formatLoop_inp_nil _ i s e
    | cons c w2 =>
      have h0 := hc 0 c (by simp)
      by_cases hp : pC = '#'
      · subst hp
        rcases h0 with ⟨-, hn⟩ | ⟨-, hne⟩
        · rw [formatLoop_hash_found pRest s e (dropNonNumbers_eq_self w2 i hn)]
          rw [ih w2 (i + 1) s e (conforms_cons hc) (by simpa using hl)]
        · exact absurd (by simp) hne
      · rcases h0 with ⟨hph, -⟩ | ⟨hcs, -⟩
        · rw [List.get?_cons_zero, Option.some.injEq] at hph
          exact absurd hph hp
        · subst hcs
          rw [formatLoop_sep_skip pRest w2 i s e hp isNumber_space]
          rw [ih w2 (i + 1) s e (conforms_cons hc) (by simpa using hl)]

lemma string_eq_of_data {a b : String} (h : a.data = b.data) : a = b :=
  congrArg String.mk h

/-! ### Claim theorems -/

/-- Shared corollary of `formatLoop_conforms`: every output character of
`formatNumber` is either a space at a non-`'#'` position of the pattern
selected from the input value, or a digit at a `'#'` position. -/
lemma formatNumber_conf_main (v : String) (k : Nat) (c : Char)
    (h : (formatNumber { value := v }).value.data.get? k = some c) :
    (c = ' ' ∧ (getPatternFromNumber v).data.get? k = some ' ')
    ∨ (isNumber c = true ∧ (getPatternFromNumber v).data.get? k = some '#') := by
  rw [formatNumber_value_data] at h
  have hlt : k < (formatLoop (getPatternFromNumber v).data v.data 0
      (effectiveStart { value := v }) (effectiveEnd { value := v })).1.length :=
    List.get?_eq_some.mp h |>.1
  have hklt : k < (getPatternFromNumber v).data.length :=
    lt_of_lt_of_le hlt (formatLoop_length _ _ _ _ _)
  have hpk := List.get?_eq_get hklt
  have hchar := getPatternFromNumber_chars v k _ hpk
  rcases formatLoop_conforms (getPatternFromNumber v).data v.data 0
      (effectiveStart { value := v }) (effectiveEnd { value := v }) k c h with
    ⟨hh, hn⟩ | ⟨hsp, hne⟩
  · exact Or.inr ⟨hn, hh⟩
  · refine Or.inl ⟨hsp, ?_⟩
    rcases hchar with hx | hx
    · exact absurd (hx ▸ hpk) hne
    · exact hx ▸ hpk

/-- C2: digit preservation: the digit characters of
`formatNumber({value: v}).value`, in order, are the digit characters of
`v` truncated to the number of `'#'` slots of the pattern
`getPatternFromNumber` selects for `v`. -/
theorem formatNumber_digit_preservation (v : String) :
    (formatNumber { value := v }).value.data.filter (fun c => isNumber c)
      = (v.data.filter (fun c => isNumber c)).take
          ((getPatternFromNumber v).data.count '#') := by
  rw [formatNumber_value_data]
  exact formatLoop_filter _ _ _ _ _

/-- C10: the output of `formatNumber` conforms position-by-position to
the pattern selected from the INPUT value: the character at position `k`
of the output is a space exactly when the input-selected pattern has a
space at position `k`, and otherwise it is a digit. -/
theorem formatNumber_matches_input_pattern (v : String) (k : Nat) (c : Char)
    (h : (formatNumber { value := v }).value.data.get? k = some c) :
    (c = ' ' ↔ (getPatternFromNumber v).data.get? k = some ' ')
    ∧ (c ≠ ' ' → isNumber c = true) := by
  rcases formatNumber_conf_main v k c h with ⟨hsp, hpk⟩ | ⟨hn, hpk⟩
  · exact ⟨iff_of_true hsp hpk, fun hne => absurd hsp hne⟩
  · refine ⟨iff_of_false (ne_space_of_isNumber hn) ?_, fun _ => hn⟩
    rw [hpk]
    intro hx
    exact absurd (Option.some.injEq .. ▸ hx) (by decide)

/-- C10 witness: output `"4111 1111 1111 1111"` for input
`"4111111111111111"`, at position 4 (a space) the property holds. -/
theorem formatNumber_matches_input_pattern_witness :
    (' ' = ' ' ↔ (getPatternFromNumber "4111111111111111").data.get? 4 = some ' ')
    ∧ (' ' ≠ ' ' → isNumber ' ' = true) :=
  formatNumber_matches_input_pattern "4111111111111111" 4 ' ' (by decide)

/-- C4 (amended): the output of `formatNumber` contains only digits and
literal spaces, and its spaces sit exactly at the separator positions of
the pattern selected by `getPatternFromNumber` for the INPUT value (the
claim's "pattern of the first digit of the output" fails, see the
counterexample). -/
theorem formatNumber_output_alphabet (v : String) (k : Nat)
    (hk : k < (formatNumber { value := v }).value.data.length) :
    ((formatNumber { value := v }).value.data.get ⟨k, hk⟩ = ' '
        ∨ isNumber ((formatNumber { value := v }).value.data.get ⟨k, hk⟩) = true)
    ∧ ((formatNumber { value := v }).value.data.get ⟨k, hk⟩ = ' '
        ↔ (getPatternFromNumber v).data.get? k = some ' ') := by
  have h := List.get?_eq_get hk
  rcases formatNumber_conf_main v k _ h with ⟨hsp, hpk⟩ | ⟨hn, hpk⟩
  · exact ⟨Or.inl hsp, iff_of_true hsp hpk⟩
  · refine ⟨Or.inr hn, iff_of_false (ne_space_of_isNumber hn) ?_⟩
    rw [hpk]
    intro hx
    exact absurd (Option.some.injEq .. ▸ hx) (by decide)

/-- C4 counterexample: for input `" 311112222"` the output is
`"311112222"`; the pattern selected for the output's first digit `'3'`
has a separator at position 4, but the output has the digit `'1'` there,
so the output's spaces do not match the output-selected pattern. -/
theorem formatNumber_output_pattern_counterexample :
    (formatNumber { value := " 311112222" }).value = "311112222"
    ∧ (getPatternFromNumber (formatNumber { value := " 311112222" }).value).data.get? 4
        = some ' '
    ∧ (formatNumber { value := " 311112222" }).value.data.get? 4 = some '1' := by
  decide

/-- C4 witness: for input `"4111111111111111"`, position 4 of the output
`"4111 1111 1111 1111"` is a space matching the input-selected pattern. -/
theorem formatNumber_output_alphabet_witness :
    ((formatNumber { value := "4111111111111111" }).value.data.get ⟨4, by decide⟩ = ' '
        ∨ isNumber ((formatNumber { value := "4111111111111111" }).value.data.get
            ⟨4, by decide⟩) = true)
    ∧ ((formatNumber { value := "4111111111111111" }).value.data.get ⟨4, by decide⟩ = ' '
        ↔ (getPatternFromNumber "4111111111111111").data.get? 4 = some ' ') :=
  formatNumber_output_alphabet "4111111111111111" 4 (by decide)

/-- C5 (amended): for explicit cursor offsets with
`s ≤ e ≤ length of the input value`, the result's cursor range satisfies
`selectionStart ≤ selectionEnd`, and `selectionEnd` is bounded by the
input length plus the number of spaces of the output value. (The
claimed bound `selectionEnd ≤ length of the output value` fails when
input characters are dropped; see the counterexample.) -/
theorem formatNumber_cursor_range_bounds (v : String) (s e : Nat)
    (h1 : s ≤ e) (h2 : e ≤ v.length) :
    (formatNumber ⟨v, some s, some e⟩).selectionStart
      ≤ (formatNumber ⟨v, some s, some e⟩).selectionEnd
    ∧ (formatNumber ⟨v, some s, some e⟩).selectionEnd
      ≤ v.length + ((formatNumber ⟨v, some s, some e⟩).value.data.count ' ') := by
  constructor
  · exact formatLoop_mono (getPatternFromNumber v).data v.data 0 s e h1
  · exact le_trans (formatLoop_end_le (getPatternFromNumber v).data v.data 0 s e)
      (Nat.add_le_add_right h2 _)

/-- C5 counterexample: the request `{value: " ", selectionStart: 1,
selectionEnd: 1}` satisfies the claim's precondition
(`1 ≤ 1 ≤ length " "`), but the result has `selectionEnd = 1` while the
output value is empty, violating `selectionEnd ≤ length of result.value`. -/
theorem formatNumber_cursor_range_counterexample :
    (1 ≤ 1 ∧ 1 ≤ (" " : String).length)
    ∧ (formatNumber ⟨" ", some 1, some 1⟩).value.length
      < (formatNumber ⟨" ", some 1, some 1⟩).selectionEnd := by
  decide

/-- C5 witness: concrete instance of the amended bounds at
`{value: "41111", selectionStart: 4, selectionEnd: 4}`. -/
theorem formatNumber_cursor_range_bounds_witness :
    (formatNumber ⟨"41111", some 4, some 4⟩).selectionStart
      ≤ (formatNumber ⟨"41111", some 4, some 4⟩).selectionEnd
    ∧ (formatNumber ⟨"41111", some 4, some 4⟩).selectionEnd
      ≤ ("41111" : String).length + ((formatNumber ⟨"41111", some 4, some 4⟩).value.data.count ' ') :=
  formatNumber_cursor_range_bounds "41111" 4 4 (by decide) (by decide)

/-- C7: cursor monotonicity: if the (defaulted) input offsets satisfy
`selectionStart ≤ selectionEnd`, so do the result's offsets. -/
theorem formatNumber_cursor_monotone (req : FormatRequest)
    (h : effectiveStart req ≤ effectiveEnd req) :
    (formatNumber req).selectionStart ≤ (formatNumber req).selectionEnd :=
  formatLoop_mono (getPatternFromNumber req.value).data req.value.data 0
    (effectiveStart req) (effectiveEnd req) h

/-- C7 witness: concrete monotone request. -/
theorem formatNumber_cursor_monotone_witness :
    effectiveStart ⟨"41111", some 2, some 4⟩
      ≤ effectiveEnd ⟨"41111", some 2, some 4⟩
    ∧ (formatNumber ⟨"41111", some 2, some 4⟩).selectionStart
      ≤ (formatNumber ⟨"41111", some 2, some 4⟩).selectionEnd :=
  ⟨by decide, formatNumber_cursor_monotone
    ⟨"41111", some 2, some 4⟩ (by decide)⟩

/-- C8: `formatNumber({value: "4111111111111111"})` with no cursor
supplied returns value `"4111 1111 1111 1111"` and cursor `(19, 19)`:
both ends default to the input length 16 and are shifted by the three
inserted spaces. -/
theorem formatNumber_visa_example :
    formatNumber { value := "4111111111111111" }
      = { value := "4111 1111 1111 1111", selectionStart := 19, selectionEnd := 19 } := by
  decide

lemma formatNumber_value_data_simple (v : String) :
    (formatNumber { value := v }).value.data =
      (formatLoop (getPatternFromNumber v).data v.data 0 v.length v.length).1 := rfl

/-- C3 (amended): for every string `v` of digits and spaces that does not
begin with a space, re-formatting the formatted value leaves the value
component unchanged:
`formatNumber({value: formatNumber({value: v}).value}).value =
formatNumber({value: v}).value`. (The claim's equality of the full
results fails, and for a space-leading `v` even the values can differ;
see the counterexample.) -/
theorem formatNumber_value_idempotent (v : String)
    (halpha : ∀ c ∈ v.data, isNumber c = true ∨ c = ' ')
    (hhead : v.data.head? ≠ some ' ') :
    (formatNumber { value := (formatNumber { value := v }).value }).value
      = (formatNumber { value := v }).value := by
  have hconf : Conforms (getPatternFromNumber v).data
      (formatNumber { value := v }).value.data := by
    rw [formatNumber_value_data_simple]
    exact formatLoop_conforms _ _ _ _ _
  have hlen : (formatNumber { value := v }).value.data.length
      ≤ (getPatternFromNumber v).data.length := by
    rw [formatNumber_value_data_simple]
    exact formatLoop_length _ _ _ _ _
  have hpat : getPatternFromNumber (formatNumber { value := v }).value
      = getPatternFromNumber v := by
    apply getPatternFromNumber_congr
    cases hv : v.data with
    | nil => rw [formatNumber_value_data_simple, hv, formatLoop_inp_nil]
    | cons d rest =>
      have hd : isNumber d = true := by
        rcases halpha d (by rw [hv]; exact List.mem_cons_self d rest) with h | h
        · exact h
        · exact absurd (by rw [hv, h]; rfl) hhead
      obtain ⟨pt, hpt⟩ : ∃ pt, (getPatternFromNumber v).data = '#' :: pt := by
        have hH := getPatternFromNumber_head v
        cases hq : (getPatternFromNumber v).data with
        | nil => rw [hq] at hH; exact absurd hH (by simp)
        | cons a t =>
          rw [hq] at hH
          simp only [List.head?_cons, Option.some.injEq] at hH
          exact ⟨t, by rw [hH]⟩
      rw [formatNumber_value_data_simple, hv, hpt,
        formatLoop_hash_found pt _ _ (dropNonNumbers_eq_self rest 0 hd)]
      rfl
  apply string_eq_of_data
  have houter : (formatNumber { value := (formatNumber { value := v }).value }).value.data
      = (formatLoop (getPatternFromNumber (formatNumber { value := v }).value).data
          (formatNumber { value := v }).value.data 0
          (formatNumber { value := v }).value.length
          (formatNumber { value := v }).value.length).1 := rfl
  rw [houter, hpat, formatLoop_fixed _ _ _ _ _ hconf hlen]

/-- C3 counterexample: `" 41111"` contains only digits and spaces, yet
re-formatting the formatted value changes it: the first pass (fallback
pattern, leading space dropped) yields `"41111"`, whose own first digit
`'4'` selects a different pattern, so the second pass yields `"4111 1"`.
The full results differ as well. -/
theorem formatNumber_idempotence_counterexample :
    (∀ c ∈ (" 41111" : String).data, isNumber c = true ∨ c = ' ')
    ∧ (formatNumber { value := (formatNumber { value := " 41111" }).value }).value
        ≠ (formatNumber { value := " 41111" }).value
    ∧ formatNumber { value := (formatNumber { value := " 41111" }).value }
        ≠ formatNumber { value := " 41111" } := by
  decide

/-- C3 witness: re-formatting the formatted `"4111111111111111"` keeps
the value `"4111 1111 1111 1111"`. -/
theorem formatNumber_value_idempotent_witness :
    (formatNumber { value := (formatNumber { value := "4111111111111111" }).value }).value
      = (formatNumber { value := "4111111111111111" }).value :=
  formatNumber_value_idempotent "4111111111111111" (by decide) (by decide)

/-- C6 (amended): the source walk's cursor rule is exactly "increment
each offset when the insertion point `i` is STRICTLY before that offset,
and only on separator-insertion steps": the walk defined from the
amended sentence coincides with the source walk on all arguments. -/
theorem formatLoop_shift_strict_before (pat inp : List Char) (i s e : Nat) :
    formatLoopShiftStrictBefore pat inp i s e = formatLoop pat inp i s e := by
  induction pat generalizing inp i s e with
  | nil => cases inp <;> rfl
  | cons pC pRest ih =>
    cases inp with
    | nil => rfl
    | cons inC inRest =>
      by_cases hp : pC = '#'
      · subst hp
        cases hdrop : dropNonNumbers (inC :: inRest) i with
        | mk l2 i2 =>
          cases l2 with
          | nil => simp [formatLoopShiftStrictBefore, formatLoop, hdrop]
          | cons d rest => simp [formatLoopShiftStrictBefore, formatLoop, hdrop, ih]
      · by_cases hn : isNumber inC = true
        · simp [formatLoopShiftStrictBefore, formatLoop, hp, hn, ih]
        · simp [formatLoopShiftStrictBefore, formatLoop, hp, hn, ih]

/-- C6 counterexample: with value `"41111"` and both cursor offsets 4,
the separator is inserted at `i = 4`, i.e. AT the cursor offset; the
source walk leaves the offsets at 4, while the claimed "at or before"
rule would move them to 5. -/
theorem formatNumber_shift_at_or_before_counterexample :
    formatNumberShiftAtOrBefore ⟨"41111", some 4, some 4⟩
      ≠ formatNumber ⟨"41111", some 4, some 4⟩
    ∧ (formatNumber ⟨"41111", some 4, some 4⟩).selectionStart = 4
    ∧ (formatNumberShiftAtOrBefore ⟨"41111", some 4, some 4⟩).selectionStart = 5 := by
  decide

/-- C9: edit-guard full-field rule: if the post-edit value has no
character other than digits and spaces, the pre-edit snapshot value's
length equals the length of the pattern selected from the post-edit
value, the post-edit value is at least that long, and the snapshot's
`isReplacing` flag is false, then `manageChange` restores exactly the
snapshot's value and cursor range and does not notify the observer. -/
theorem manageChange_full_field_reject (originalInputData : EditSnapshot)
    (input : FormatResult) (displayedValue : String)
    (h1 : hasNonCardChar input.value = false)
    (h2 : originalInputData.value.length = (getPatternFromNumber input.value).length)
    (h3 : input.value.length ≥ (getPatternFromNumber input.value).length)
    (h4 : originalInputData.isReplacing = false) :
    manageChange originalInputData input displayedValue =
      ({ value := originalInputData.value,
          selectionStart := originalInputData.selectionStart,
          selectionEnd := originalInputData.selectionEnd }, false) := by
  simp [manageChange, h1, h2, h3, h4]

/-- C9 witness: a full 23-character Visa-format snapshot, a 24-character
digits-and-spaces post-edit value, `isReplacing` false: the edit is
rejected and the snapshot restored. -/
theorem manageChange_full_field_reject_witness :
    manageChange ⟨"4111 1111 1111 1111 111", 23, 23, false, false⟩
        ⟨"44111 1111 1111 1111 111", 1, 1⟩ "4111 1111 1111 1111 111"
      = (⟨"4111 1111 1111 1111 111", 23, 23⟩, false) :=
  manageChange_full_field_reject ⟨"4111 1111 1111 1111 111", 23, 23, false, false⟩
    ⟨"44111 1111 1111 1111 111", 1, 1⟩ "4111 1111 1111 1111 111"
    (by decide) (by decide) (by decide) (by decide)
